import Mathlib

/-
Verification development for the `prettyplots` plotting library
(`prettyplots/data.py`, `prettyplots/plot.py`).

The relevant program logic is the parameter-normalization, axis-group
dispatch and draw-call sequencing of `single_plot` and `single_hist`.
Python values are embedded as follows: numeric data is modelled by `Rat`
(the code performs only linear arithmetic on it), Python `None` by
`Option.none`, Python exceptions by an explicit error component of the
result, and the structurally sniffed option shapes (`scalar` vs `flat
list` vs `pair of lists`) by inductive types with one constructor per
shape that the code's `isinstance`/`try` dispatch distinguishes.
Draw-primitive calls to matplotlib are recorded as explicit trace
elements; a call that the Python code issues before an exception is
raised appears in the trace, together with the pending error.
-/

/-- Python exceptions that the modelled code paths can raise.
`indexError` models `IndexError` (out-of-range subscript), `typeError`
models `TypeError` (e.g. `len()` of an `XYData`), `valueError` models
`ValueError` (e.g. `np.amin` of an empty array). -/
inductive PyErr where
  | indexError
  | typeError
  | valueError
deriving DecidableEq

/-- Error-bar specification of an `XYData` field `xerr`/`yerr`
(`data.py` lines 62-71): `None`, a scalar, a 1d array, or a pair of
1d arrays for asymmetric bars. -/
inductive ErrSpec where
  | missing
  | scalar (c : Rat)
  | oneDim (l : List Rat)
  | twoDim (lo hi : List Rat)
deriving DecidableEq

/-- Data class `prettyplots.data.XYData` (`data.py` lines 53-82): x data,
y data and optional error bars. An `XYData` object is not a sequence:
`len()` applied to it raises `TypeError`, which is what the group
dispatch of `single_plot` relies on. -/
structure XYData where
  x : List Rat
  y : List Rat
  xerr : ErrSpec := .missing
  yerr : ErrSpec := .missing
deriving DecidableEq

/-- Data class `prettyplots.data.XData` (`data.py` lines 35-49): the
x data of one histogram series. -/
structure XData where
  x : List Rat
deriving DecidableEq

/-- Shape of the `xy_data_sets` argument of `single_plot` (`plot.py`
lines 86-94): either a flat sequence of `XYData` (all series on the
left y-scale) or a two-element sequence of sequences (left group,
right group). -/
inductive XYDataSets where
  | flat (l : List XYData)
  | pair (left right : List XYData)
deriving DecidableEq

/-- Shape of a per-series style option (`colors`, `markers`,
`linestyles` of `single_plot`, `plot.py` lines 102-138): absent
(`None`), a single string, a flat list of strings, or a two-element
nested list of lists (left group, right group). -/
inductive StyleOpt where
  | pynone
  | str (s : String)
  | flat (l : List String)
  | nested (left right : List String)
deriving DecidableEq

/-- Shape of the `legend_labels` option (`plot.py` lines 170-178):
absent, a flat list of strings, or a nested pair of lists. The
documented type admits no single-string form. -/
inductive LegendOpt where
  | pynone
  | flat (l : List String)
  | nested (left right : List String)
deriving DecidableEq

/-- Shape of a `bool`-or-pair option (`scatterplot`, `y_log_scale`). -/
inductive BoolOpt where
  | single (b : Bool)
  | pair (left right : Bool)
deriving DecidableEq

/-- Shape of the `y_label` option: one string for both axes or a pair. -/
inductive StrOpt where
  | single (s : String)
  | pair (left right : String)
deriving DecidableEq

/-- Shape of the `y_lims` option: one `[lo, hi]` range used for both
y-axes or a pair of ranges. -/
inductive LimOpt where
  | single (lo hi : Option Rat)
  | double (left right : Option Rat × Option Rat)
deriving DecidableEq

/-- Shape of the `major_ytick_spacing` / `minor_ytick_spacing` options:
absent, one scalar spacing, or a pair of per-axis lists (the shape the
`value[0][0]` probe at `plot.py` lines 445-451 detects). -/
inductive SpacingOpt where
  | pynone
  | scalar (q : Rat)
  | pairLists (left right : List Rat)
deriving DecidableEq

/-- Shape of the `aspect` option: a string or a positive float. -/
inductive AspectOpt where
  | str (s : String)
  | num (q : Rat)
deriving DecidableEq

/-- Keyword-argument dictionary of a vline/hline, modelled as an
association list. -/
def Kwargs : Type := List (String × String)

instance : DecidableEq Kwargs := by
  unfold Kwargs
  infer_instance

/-- Parameter object `SinglePlotParams` (`plot.py` lines 236-309), with
the default of every `__init__` keyword. The Python attribute `show` is
rendered `show_` because `show` is reserved in Lean. -/
structure SinglePlotParams where
  xy_data_sets : XYDataSets
  scatterplot : BoolOpt := .single false
  colors : StyleOpt := .pynone
  markers : StyleOpt := .pynone
  markersize : Rat := 11
  vlines : List Rat := []
  hlines : List Rat := []
  vline_kwargs_set : Option (List Kwargs) := none
  hline_kwargs_set : Option (List Kwargs) := none
  linestyles : StyleOpt := .pynone
  linewidth : Rat := 3
  grid_linewidth : Rat := 0
  x_lims : Option Rat × Option Rat := (none, none)
  y_lims : LimOpt := .single none none
  x_log_scale : Bool := false
  y_log_scale : BoolOpt := .single false
  x_label : String := ""
  y_label : StrOpt := .single ""
  xy_label_ft_size : Rat := 20
  legend_labels : LegendOpt := .pynone
  legend_loc : String := "best"
  legend_ft_size : Rat := 18
  major_xtick_len : Rat := 8
  minor_xtick_len : Rat := 5
  major_ytick_len : Rat := 8
  minor_ytick_len : Rat := 5
  major_xtick_spacing : Option Rat := none
  minor_xtick_spacing : Option Rat := none
  major_ytick_spacing : SpacingOpt := .pynone
  minor_ytick_spacing : SpacingOpt := .pynone
  tick_label_ft_size : Rat := 18
  title : String := ""
  title_ft_size : Rat := 20
  fig_label : String := ""
  fig_label_coords : Rat × Rat := (5/100, 93/100)
  fig_label_ft_size : Rat := 20
  aspect : AspectOpt := .str "auto"
  scale : Rat := 1
  filename : Option String := none
  img_fmt : String := "pdf"
  show_ : Bool := true
deriving DecidableEq

/-- Group dispatch of `single_plot` (`plot.py` lines 333-344). The code
probes `len(xy_data_sets[0])`: for a flat collection of `XYData` this
raises `TypeError` (an `XYData` has no length), which is caught and
makes every series a left-group series with an empty right group; for a
two-element sequence of sequences the probe succeeds and the two inner
sequences become the left and right groups. For an empty flat
collection the subscript `xy_data_sets[0]` itself raises `IndexError`,
which the `except TypeError` clause does not catch. -/
def partitionXYDataSets : XYDataSets → Except PyErr (List XYData × List XYData)
  | .flat [] => .error .indexError
  | .flat (d :: ds) => .ok (d :: ds, [])
  | .pair a b => .ok (a, b)

/-- Normalization of one of `colors` / `markers` / `linestyles`
(`plot.py` lines 360-373, 376-389 and 392-405, three textually
identical blocks): `None` gives per-series `None` defaults for both
groups; a single string is broadcast to every series of both groups; a
flat list (detected by `isinstance(value[0], str)`, which raises
`IndexError` on an empty list) becomes the left-group table with an
empty right-group table; a nested pair of lists is split into the two
group tables. Lengths are never checked. -/
def resolveStyle (L R : Nat) : StyleOpt →
    Except PyErr (List (Option String) × List (Option String))
  | .pynone => .ok (List.replicate L none, List.replicate R none)
  | .str s => .ok (List.replicate L (some s), List.replicate R (some s))
  | .flat [] => .error .indexError
  | .flat (s :: t) => .ok ((s :: t).map some, [])
  | .nested a b => .ok (a.map some, b.map some)

/-- Normalization of `legend_labels` (`plot.py` lines 346-358): like
`resolveStyle` but with a `no_legend` flag instead of a scalar form.
The first component records `no_legend`. -/
def resolveLegendLabels (L R : Nat) : LegendOpt →
    Except PyErr (Bool × List (Option String) × List (Option String))
  | .pynone => .ok (true, List.replicate L none, List.replicate R none)
  | .flat [] => .error .indexError
  | .flat (s :: t) => .ok (false, (s :: t).map some, [])
  | .nested a b => .ok (false, a.map some, b.map some)

/-- Normalization of a bool-or-pair option such as `scatterplot`
(`plot.py` lines 407-413). -/
def resolveBoolOpt : BoolOpt → Bool × Bool
  | .single b => (b, b)
  | .pair a b => (a, b)

/-- One recorded `ax.errorbar` draw-primitive call of `single_plot`
(`plot.py` lines 476-511). `axisIdx` is 1 for `ax_1` (left y-scale) and
2 for `ax_2` (right y-scale); the remaining fields are the data and
keyword arguments the call receives. In scatter mode the linestyle
passed is the literal string `"none"` and the per-series linestyle
table is never consulted. -/
structure DrawCall where
  axisIdx : Nat
  dataIdx : Nat
  x : List Rat
  y : List Rat
  xerr : ErrSpec
  yerr : ErrSpec
  scatter : Bool
  color : Option String
  marker : Option String
  linestyle : Option String
  label : Option String
deriving DecidableEq

/-- Draw loop over one axis group (`plot.py` lines 469-489 for the left
group, 491-511 for the right group), recorded as the list of issued
calls plus the pending exception, if any. The loop body subscripts the
per-series style tables; an out-of-range subscript raises `IndexError`,
abandoning the remaining iterations while keeping the calls already
issued. Arguments: axis index, scatter flag, series list, color /
marker / linestyle / label tables, start index, number of remaining
iterations. -/
def drawGroupAux (ax : Nat) (sc : Bool) (xs : List XYData)
    (cs ms lss lbs : List (Option String)) :
    Nat → Nat → List DrawCall × Option PyErr
  | _, 0 => ([], none)
  | idx, k + 1 =>
    match xs[idx]? with
    | none => ([], some .indexError)
    | some d =>
      if sc then
        match ms[idx]?, cs[idx]?, lbs[idx]? with
        | some m, some c, some lb =>
          let rest := drawGroupAux ax sc xs cs ms lss lbs (idx + 1) k
          (⟨ax, idx, d.x, d.y, d.xerr, d.yerr, true, c, m, some "none", lb⟩
             :: rest.1, rest.2)
        | _, _, _ => ([], some .indexError)
      else
        match lss[idx]?, cs[idx]?, lbs[idx]?, ms[idx]? with
        | some lsv, some c, some lb, some m =>
          let rest := drawGroupAux ax sc xs cs ms lss lbs (idx + 1) k
          (⟨ax, idx, d.x, d.y, d.xerr, d.yerr, false, c, m, lsv, lb⟩
             :: rest.1, rest.2)
        | _, _, _, _ => ([], some .indexError)

/-- Draw loop over one axis group, started at index 0 and iterated
`n = len(group)` times, exactly as `for idx in range(num_..._xy_data_sets)`. -/
def drawGroup (ax : Nat) (sc : Bool) (xs : List XYData)
    (cs ms lss lbs : List (Option String)) (n : Nat) :
    List DrawCall × Option PyErr :=
  drawGroupAux ax sc xs cs ms lss lbs 0 n

/-- Draw phase of `single_plot` (`plot.py` lines 333-511): group
dispatch, option normalization in source order (`legend_labels`,
`colors`, `markers`, `linestyles`, `scatterplot`), then the left-group
and right-group draw loops. The result is the trace of issued
`errorbar` calls and the exception, if any, that interrupted the call.
The remaining normalizations of lines 415-465 only configure axis
decorations and raise no exception for well-typed inputs, so they do
not appear in the trace. -/
def singlePlotDrawPhase (p : SinglePlotParams) :
    List DrawCall × Option PyErr :=
  match partitionXYDataSets p.xy_data_sets with
  | .error e => ([], some e)
  | .ok (left, right) =>
    match resolveLegendLabels left.length right.length p.legend_labels with
    | .error e => ([], some e)
    | .ok (_, llbs, rlbs) =>
      match resolveStyle left.length right.length p.colors with
      | .error e => ([], some e)
      | .ok (lcs, rcs) =>
        match resolveStyle left.length right.length p.markers with
        | .error e => ([], some e)
        | .ok (lms, rms) =>
          match resolveStyle left.length right.length p.linestyles with
          | .error e => ([], some e)
          | .ok (llss, rlss) =>
            let scpair := resolveBoolOpt p.scatterplot
            let lres := drawGroup 1 scpair.1 left lcs lms llss llbs left.length
            match lres.2 with
            | some e => (lres.1, some e)
            | none =>
              let rres := drawGroup 2 scpair.2 right rcs rms rlss rlbs
                  right.length
              (lres.1 ++ rres.1, rres.2)

/-- Parameter mutation of `single_plot` (`plot.py` lines 515-518): when
`vline_kwargs_set` (resp. `hline_kwargs_set`) is `None` the call
overwrites that attribute of the caller's params object with a list of
empty kwargs dictionaries, one per vline (resp. hline). These are the
only two statements in `single_plot` that write to `params`. -/
def updateLineKwargs (p : SinglePlotParams) : SinglePlotParams :=
  let vk := some (List.replicate p.vlines.length ([] : Kwargs))
  let p1 :=
    match p.vline_kwargs_set with
    | none => { p with vline_kwargs_set := vk }
    | some _ => p
  let hk := some (List.replicate p1.hlines.length ([] : Kwargs))
  match p1.hline_kwargs_set with
  | none => { p1 with hline_kwargs_set := hk }
  | some _ => p1

/-- Model of a `single_plot` call: the draw phase runs first; if it
raises, the call dies before reaching line 515 and the caller's params
object is untouched, otherwise lines 515-518 update it. The result is
the final state of the params object, the issued draw calls, and the
escaping exception, if any. -/
def singlePlotModel (p : SinglePlotParams) :
    SinglePlotParams × List DrawCall × Option PyErr :=
  let r := singlePlotDrawPhase p
  match r.2 with
  | some e => (p, r.1, some e)
  | none => (updateLineKwargs p, r.1, none)

/-- State read from the left axis `ax_1` at `plot.py` lines 634-635:
its y-limits and its minor y-tick positions. -/
structure LeftAxisView where
  ylim : Rat × Rat
  minorYTicks : List Rat
deriving DecidableEq

/-- Settings applied to the right twin axis `ax_2` by `plot.py` lines
632-648: whether right-side tick labels are drawn, and the y-limits and
minor y-ticks copied onto `ax_2`, when any. -/
structure RightAxisTickConfig where
  labelright : Bool
  mirroredYLim : Option (Rat × Rat)
  mirroredMinorTicks : Option (List Rat)
deriving DecidableEq

/-- Right-axis tick setup of `single_plot` (`plot.py` lines 632-648):
with no right-group series the code disables right tick labels and
mirrors the left axis's minor y-ticks and y-limits onto `ax_2`;
otherwise it enables right tick labels and copies nothing. -/
def rightAxisTickSetup (numRight : Nat) (ax1 : LeftAxisView) :
    RightAxisTickConfig :=
  if numRight = 0 then
    { labelright := false
      mirroredYLim := some ax1.ylim
      mirroredMinorTicks := some ax1.minorYTicks }
  else
    { labelright := true, mirroredYLim := none, mirroredMinorTicks := none }

/-- Model of `np.linspace(a, b, num)` over an arbitrary field
(`plot.py` lines 1199 and 1227): `num` evenly spaced values whose first
entry is `a` and whose last entry is `b`. For `num = 1` numpy returns
`[a]`; otherwise entry `i` is `a + (b - a) * i / (num - 1)`. -/
def linspace {K : Type} [Field K] (a b : K) (num : Nat) : List K :=
  if num = 1 then [a]
  else (List.range num).map
    (fun i : Nat => a + ((b - a) * (i : K)) / (((num - 1 : Nat)) : K))

/-- Model of `np.amin` (`plot.py` line 1199): the least element of a
nonempty array; `np.amin` of an empty array raises `ValueError`,
modelled by `none`. -/
def aminQ : List Rat → Option Rat
  | [] => none
  | a :: t => some (t.foldl min a)

/-- Model of `np.amax` (`plot.py` line 1199): the greatest element of a
nonempty array; `none` on the empty array. -/
def amaxQ : List Rat → Option Rat
  | [] => none
  | a :: t => some (t.foldl max a)

/-- Model of `np.sort` on a 1d rational array (`plot.py` lines 1200 and
1228): the ascending rearrangement. Over a linear order the sorted
rearrangement of a list is unique, so any correct sort is extensionally
`np.sort`. -/
def sortQ (l : List Rat) : List Rat := List.insertionSort (· ≤ ·) l

/-- Value of `bins` in `SingleHistParams` (`plot.py` lines 967-971): an
integer bin count or an explicit array of edges. -/
inductive BinsOpt where
  | int (n : Nat)
  | arr (l : List Rat)
deriving DecidableEq

/-- Value of `cumulative` in `SingleHistParams` (`plot.py` lines
972-976): a bool or a number (a negative number reverses the direction
of accumulation). -/
inductive CumulativeOpt where
  | bool (b : Bool)
  | num (q : Rat)
deriving DecidableEq

/-- Python test `cumulative == False` (`plot.py` line 1167). Python's
`==` equates `False` with the numbers `0` and `0.0`. -/
def cumulativeEqFalse : CumulativeOpt → Bool
  | .bool b => !b
  | .num q => q == 0

/-- Value of a numpy-broadcast style option of `single_hist` (`colors`
when not `None`, `alphas`): a scalar or a 1d array. -/
inductive NpVal (A : Type) where
  | scalar (a : A)
  | arr (l : List A)
deriving DecidableEq

/-- Model of `_to_np_array` (`plot.py` lines 54-71): a scalar becomes a
one-element array, an array is unchanged. -/
def toNpArray {A : Type} : NpVal A → List A
  | .scalar a => [a]
  | .arr l => l

/-- Model of `np.resize(l, n)` for nonempty `l` (`plot.py` lines 1186
and 1190): the array repeated cyclically to length `n`. -/
def npResize {A : Type} (l : List A) (n : Nat) : List A :=
  match l with
  | [] => []
  | a :: t => (List.range n).map (fun i => (a :: t).getD (i % (a :: t).length) a)

/-- Resolution of `colors` in `single_hist` (`plot.py` lines 1180-1186):
`None` gives per-set `None`; otherwise the value is converted to a
numpy array and, when it has a single element, resized to one entry per
data set. Lengths of longer arrays are not checked. -/
def resolveHistColors (N : Nat) : Option (NpVal String) → List (Option String)
  | none => List.replicate N none
  | some v =>
    let c := toNpArray v
    let c := if c.length = 1 then npResize c N else c
    c.map some

/-- Resolution of `alphas` in `single_hist` (`plot.py` lines 1188-1190):
the value is converted to a numpy array and, when it has a single
element, resized to one entry per data set. -/
def resolveHistAlphas (N : Nat) (v : NpVal Rat) : List Rat :=
  let a := toNpArray v
  if a.length = 1 then npResize a N else a

/-- Parameter object `SingleHistParams` (`plot.py` lines 1071-1139),
with the default of every `__init__` keyword. -/
structure SingleHistParams where
  x_data_sets : List XData
  bins : BinsOpt := .int 10
  cumulative : CumulativeOpt := .bool false
  normalized : Bool := false
  colors : Option (NpVal String) := none
  alphas : NpVal Rat := .scalar (8/10)
  axes_linewidth : Rat := 3
  bar_edge_width : Rat := 2
  x_lims : Option Rat × Option Rat := (none, none)
  y_lims : Option Rat × Option Rat := (none, none)
  x_log_scale : Bool := false
  y_log_scale : Bool := false
  x_label : String := ""
  y_label : String := ""
  xy_label_ft_size : Rat := 20
  title : String := ""
  title_ft_size : Rat := 20
  legend_labels : Option (List String) := none
  legend_loc : String := "best"
  legend_ft_size : Rat := 18
  major_xtick_len : Rat := 8
  minor_xtick_len : Rat := 5
  major_ytick_len : Rat := 8
  minor_ytick_len : Rat := 5
  major_xtick_spacing : Option Rat := none
  minor_xtick_spacing : Option Rat := none
  major_ytick_spacing : Option Rat := none
  minor_ytick_spacing : Option Rat := none
  tick_label_ft_size : Rat := 18
  fig_label : String := ""
  fig_label_coords : Rat × Rat := (5/100, 93/100)
  fig_label_ft_size : Rat := 20
  aspect : AspectOpt := .str "auto"
  scale : Rat := 1
  filename : Option String := none
  img_fmt : String := "pdf"
  show_ : Bool := true
deriving DecidableEq

/-- Bin edges used by the first (fill) hist loop of `single_hist`
(`plot.py` lines 1197-1200): an integer `n` gives
`np.linspace(np.amin(x), np.amax(x), n + 1)`; then `np.sort` is applied
unconditionally, so an explicit edge array is sorted too. -/
def histBinsFill (bins : BinsOpt) (x : List Rat) : Except PyErr (List Rat) :=
  match bins with
  | .int n =>
    match aminQ x, amaxQ x with
    | some a, some b => .ok (sortQ (linspace a b (n + 1)))
    | _, _ => .error .valueError
  | .arr l => .ok (sortQ l)

/-- Bin edges used by the second (outline) hist loop of `single_hist`
(`plot.py` lines 1225-1228): identical computation for an integer bin
count, but for an explicit edge array the `np.sort` call sits inside
the `isinstance(bins, int)` branch, so the array is passed unsorted. -/
def histBinsOutline (bins : BinsOpt) (x : List Rat) : Except PyErr (List Rat) :=
  match bins with
  | .int n =>
    match aminQ x, amaxQ x with
    | some a, some b => .ok (sortQ (linspace a b (n + 1)))
    | _, _ => .error .valueError
  | .arr l => .ok l

/-- Edges argument handed to one `ax.hist` call. In log-scale mode the
code passes `np.logspace(np.log10(bins[0]), np.log10(bins[-1]),
len(bins))` of the linear edges `bins` (`plot.py` lines 1202-1205);
the constructor `log` records those linear edges, and `histLogEdges`
below gives their real-valued logspace semantics. -/
inductive EdgeSpec where
  | lin (edges : List Rat)
  | log (linEdges : List Rat)
deriving DecidableEq

/-- Selection between direct and logspace edges (`plot.py` lines
1202-1216 and 1230-1242). -/
def mkEdges (xlog : Bool) (l : List Rat) : EdgeSpec :=
  if xlog then .log l else .lin l

/-- One recorded `ax.hist` call of `single_hist` (`plot.py` lines
1207-1216 for the fill loop, 1235-1242 for the outline loop), with the
keyword arguments each call receives. Keywords a call does not pass are
recorded as `none` (for `histType`, matplotlib's default `"bar"` is
recorded, since the outline call omits `histtype`). -/
structure HistCall where
  dataIdx : Nat
  x : List Rat
  edges : EdgeSpec
  histType : String
  outline : Bool
  facecolor : Option String
  edgecolor : Option String
  linewidth : Option Rat
  alpha : Option Rat
  label : Option String
  cumulative : Option CumulativeOpt
  density : Bool
deriving DecidableEq

/-- First hist loop of `single_hist` (`plot.py` lines 1194-1216): per
data set, compute the bin edges, then issue one fill draw whose
keywords subscript the per-set `alphas`, `colors` and `legend_labels`
tables (an out-of-range subscript raises `IndexError`, keeping the
calls already issued). Arguments after the tables: start index and
number of remaining iterations. -/
def histFillAux (bins : BinsOpt) (xlog : Bool) (hType : String)
    (lw : Option Rat) (cum : CumulativeOpt) (dens : Bool)
    (xds : List XData) (cols : List (Option String)) (alps : List Rat)
    (lbls : List (Option String)) :
    Nat → Nat → List HistCall × Option PyErr
  | _, 0 => ([], none)
  | idx, k + 1 =>
    match xds[idx]? with
    | none => ([], some .indexError)
    | some d =>
      match histBinsFill bins d.x with
      | .error e => ([], some e)
      | .ok edges =>
        match alps[idx]?, cols[idx]?, lbls[idx]? with
        | some alp, some col, some lbl =>
          let rest := histFillAux bins xlog hType lw cum dens xds cols alps
              lbls (idx + 1) k
          (⟨idx, d.x, mkEdges xlog edges, hType, false, col, none, lw,
              some alp, lbl, some cum, dens⟩ :: rest.1, rest.2)
        | _, _, _ => ([], some .indexError)

/-- Second hist loop of `single_hist` (`plot.py` lines 1218-1242), run
only in bar mode: per data set, recompute the bin edges (without
re-sorting an explicit edge array) and issue one outline-only draw with
`facecolor="None"`, black edges and `linewidth=params.bar_edge_width`. -/
def histOutlineAux (bins : BinsOpt) (xlog : Bool) (lw : Rat) (dens : Bool)
    (xds : List XData) : Nat → Nat → List HistCall × Option PyErr
  | _, 0 => ([], none)
  | idx, k + 1 =>
    match xds[idx]? with
    | none => ([], some .indexError)
    | some d =>
      match histBinsOutline bins d.x with
      | .error e => ([], some e)
      | .ok edges =>
        let rest := histOutlineAux bins xlog lw dens xds (idx + 1) k
        (⟨idx, d.x, mkEdges xlog edges, "bar", true, some "None",
            some "black", some lw, none, none, none, dens⟩ :: rest.1, rest.2)

/-- Model of a `single_hist` call (`plot.py` lines 1143-1242): resolve
`cumulative` into the hist type and fill linewidth (lines 1165-1172),
resolve `legend_labels`, `colors` and `alphas` (lines 1174-1190), run
the fill loop over all data sets and, in bar mode, the outline loop
(the comment at line 1218 explains the second pass avoids transparent
bar edges). The result is the trace of issued `ax.hist` calls and the
escaping exception, if any. -/
def singleHistModel (p : SingleHistParams) : List HistCall × Option PyErr :=
  let N := p.x_data_sets.length
  let isBar := cumulativeEqFalse p.cumulative
  let hType := if isBar then "bar" else "step"
  let lwFill : Option Rat := if isBar then none else some p.bar_edge_width
  let lbls : List (Option String) :=
    match p.legend_labels with
    | none => List.replicate N none
    | some ls => ls.map some
  let cols := resolveHistColors N p.colors
  let alps := resolveHistAlphas N p.alphas
  let fres := histFillAux p.bins p.x_log_scale hType lwFill p.cumulative
      p.normalized p.x_data_sets cols alps lbls 0 N
  match fres.2 with
  | some e => (fres.1, some e)
  | none =>
    if isBar then
      let ores := histOutlineAux p.bins p.x_log_scale p.bar_edge_width
          p.normalized p.x_data_sets 0 N
      (fres.1 ++ ores.1, ores.2)
    else (fres.1, none)

/-- Real-valued semantics of `np.logspace(np.log10(bins[0]),
np.log10(bins[-1]), len(bins))` (`plot.py` lines 1203-1205 and
1231-1233): `len(bins)` points spaced evenly on a base-10 logarithmic
scale between the first and the last linear edge. -/
noncomputable def histLogEdges (l : List Rat) : List Real :=
  (linspace (Real.logb 10 ((l.headD 0 : Rat) : Real))
      (Real.logb 10 ((l.getLastD 0 : Rat) : Real)) l.length).map
    (fun t => (10 : Real) ^ t)

/-- Real-valued edges of an `EdgeSpec`: linear edges embed directly,
log edges via `histLogEdges`. -/
noncomputable def edgeSpecValues : EdgeSpec → List Real
  | .lin l => l.map (fun q => (q : Real))
  | .log l => histLogEdges l

/-- Sample series used by concrete counterexamples and witnesses. -/
def xyA : XYData := { x := [0], y := [1] }

/-- Sample series used by concrete counterexamples and witnesses. -/
def xyB : XYData := { x := [0], y := [2] }

/-- Sample series used by concrete counterexamples and witnesses. -/
def xyC : XYData := { x := [0], y := [3] }

/-- A `single_plot` parameter object whose only non-default options are
a two-group series collection and a flat `colors` list. -/
def pairColorsParams (ld rd : List XYData) (l : List String) :
    SinglePlotParams :=
  { xy_data_sets := .pair ld rd, colors := .flat l }

/-- A `single_plot` parameter object whose only non-default options are
a flat series collection and a flat `colors` list. -/
def flatColorsParams (ds : List XYData) (l : List String) :
    SinglePlotParams :=
  { xy_data_sets := .flat ds, colors := .flat l }

instance {E A : Type} [DecidableEq E] [DecidableEq A] : DecidableEq (Except E A) := fun a b =>
  match a, b with
  | .error e, .error f =>
    if h : e = f then .isTrue (congrArg Except.error h)
    else .isFalse fun c => h (Except.error.inj c)
  | .ok x, .ok y =>
    if h : x = y then .isTrue (congrArg Except.ok h)
    else .isFalse fun c => h (Except.ok.inj c)
  | .error _, .ok _ => .isFalse fun c => Except.noConfusion c
  | .ok _, .error _ => .isFalse fun c => Except.noConfusion c

theorem linspace_length {K : Type} [Field K] (a b : K) (num : Nat) :
    (linspace a b num).length = num := by
  unfold linspace
  split
  · simp [*]
  · simp

theorem linspace_getElem {K : Type} [Field K] (a b : K) {n i : Nat}
    (hn : n ≠ 0) (hi : i < n + 1) :
    (linspace a b (n + 1))[i]? = some (a + ((b - a) * (i : K)) / (n : K)) := by
  unfold linspace
  rw [if_neg (by omega), List.getElem?_map, List.getElem?_range hi]
  simp

theorem linspace_first {K : Type} [Field K] (a b : K) {n : Nat} (hn : n ≠ 0) :
    (linspace a b (n + 1))[0]? = some a := by
  rw [linspace_getElem a b hn (by omega)]
  simp

theorem linspace_last {K : Type} [Field K] (a b : K) {n : Nat}
    (hn : n ≠ 0) (hK : (n : K) ≠ 0) :
    (linspace a b (n + 1))[n]? = some b := by
  rw [linspace_getElem a b hn (by omega)]
  rw [mul_div_assoc, div_self hK, mul_one]
  ring_nf

theorem linspace_step {K : Type} [Field K] (a b : K) {n i : Nat}
    (hn : n ≠ 0) (hK : (n : K) ≠ 0) (hi : i < n) :
    ∃ u v : K, (linspace a b (n + 1))[i]? = some u ∧
      (linspace a b (n + 1))[i + 1]? = some v ∧ v - u = (b - a) / (n : K) := by
  refine ⟨_, _, linspace_getElem a b hn (by omega),
    linspace_getElem a b hn (by omega), ?_⟩
  push_cast
  field_simp
  ring

theorem linspace_sorted {K : Type} [LinearOrderedField K] (a b : K)
    (num : Nat) (hab : a ≤ b) : List.Sorted (· ≤ ·) (linspace a b num) := by
  unfold linspace
  split
  · simp
  · rw [List.Sorted, List.pairwise_map]
    refine (List.pairwise_lt_range num).imp ?_
    intro i j hij
    have hij2 : (i : K) ≤ (j : K) := by exact_mod_cast Nat.le_of_lt hij
    have hba : (0 : K) ≤ b - a := by linarith
    gcongr

theorem sortQ_linspace (a b : Rat) (num : Nat) (hab : a ≤ b) :
    sortQ (linspace a b num) = linspace a b num :=
  List.Sorted.insertionSort_eq (linspace_sorted a b num hab)

theorem foldl_min_le (t : List Rat) (a : Rat) : t.foldl min a ≤ a := by
  induction t generalizing a with
  | nil => exact le_refl a
  | cons x t ih => exact (ih (min a x)).trans (min_le_left a x)

theorem le_foldl_max (t : List Rat) (a : Rat) : a ≤ t.foldl max a := by
  induction t generalizing a with
  | nil => exact le_refl a
  | cons x t ih => exact (le_max_left a x).trans (ih (max a x))

theorem aminQ_le_amaxQ (x0 : Rat) (xs : List Rat) :
    xs.foldl min x0 ≤ xs.foldl max x0 :=
  (foldl_min_le xs x0).trans (le_foldl_max xs x0)

theorem foldl_min_self (m : Nat) (c : Rat) :
    (List.replicate m c).foldl min c = c := by
  induction m with
  | zero => rfl
  | succ m ih => rw [List.replicate_succ, List.foldl_cons, min_self]; exact ih

theorem foldl_max_self (m : Nat) (c : Rat) :
    (List.replicate m c).foldl max c = c := by
  induction m with
  | zero => rfl
  | succ m ih => rw [List.replicate_succ, List.foldl_cons, max_self]; exact ih

theorem aminQ_replicate (m : Nat) (c : Rat) :
    aminQ (List.replicate (m + 1) c) = some c := by
  rw [List.replicate_succ]
  simp only [aminQ]
  rw [foldl_min_self]

theorem amaxQ_replicate (m : Nat) (c : Rat) :
    amaxQ (List.replicate (m + 1) c) = some c := by
  rw [List.replicate_succ]
  simp only [amaxQ]
  rw [foldl_max_self]

theorem linspace_const {K : Type} [Field K] (c : K) (num : Nat) :
    linspace c c num = List.replicate num c := by
  unfold linspace
  split
  · simp [*]
  · have h : (fun i : Nat => c + ((c - c) * (i : K)) / (((num - 1 : Nat)) : K)) =
        fun _ : Nat => c := by
      funext i
      simp
    rw [h, List.map_const', List.length_range]

theorem drawGroupAux_ok (ax : Nat) (xs : List XYData)
    (cs ms lss lbs : List (Option String)) :
    ∀ (k idx : Nat), idx + k ≤ xs.length → idx + k ≤ cs.length →
      idx + k ≤ ms.length → idx + k ≤ lss.length → idx + k ≤ lbs.length →
      (drawGroupAux ax false xs cs ms lss lbs idx k).2 = none ∧
      (drawGroupAux ax false xs cs ms lss lbs idx k).1.length = k ∧
      ∀ j, j < k →
        ∃ call, (drawGroupAux ax false xs cs ms lss lbs idx k).1[j]? = some call ∧
          call.axisIdx = ax ∧ call.dataIdx = idx + j ∧
          some call.color = cs[idx + j]? := by
  intro k
  induction k with
  | zero =>
    intro idx h1 h2 h3 h4 h5
    refine ⟨rfl, rfl, ?_⟩
    intro j hj
    omega
  | succ k ih =>
    intro idx h1 h2 h3 h4 h5
    have hx : xs[idx]? = some (xs.get ⟨idx, by omega⟩) :=
      List.getElem?_eq_getElem (show idx < xs.length by omega)
    have hc : cs[idx]? = some (cs.get ⟨idx, by omega⟩) :=
      List.getElem?_eq_getElem (show idx < cs.length by omega)
    have hm : ms[idx]? = some (ms.get ⟨idx, by omega⟩) :=
      List.getElem?_eq_getElem (show idx < ms.length by omega)
    have hls : lss[idx]? = some (lss.get ⟨idx, by omega⟩) :=
      List.getElem?_eq_getElem (show idx < lss.length by omega)
    have hlb : lbs[idx]? = some (lbs.get ⟨idx, by omega⟩) :=
      List.getElem?_eq_getElem (show idx < lbs.length by omega)
    obtain ⟨ihErr, ihLen, ihGet⟩ := ih (idx + 1) (by omega) (by omega)
      (by omega) (by omega) (by omega)
    simp only [drawGroupAux, hx, hc, hm, hls, hlb, Bool.false_eq_true,
      if_false]
    refine ⟨ihErr, by simp [ihLen], ?_⟩
    intro j hj
    match j with
    | 0 =>
      refine ⟨_, List.getElem?_cons_zero, rfl, by simp, ?_⟩
      simp [Nat.add_zero, hc]
    | j + 1 =>
      obtain ⟨call, hcall, hax, hidx, hcol⟩ := ihGet j (by omega)
      refine ⟨call, ?_, hax, by omega, ?_⟩
      · rw [List.getElem?_cons_succ, hcall]
      · rw [hcol]
        congr 1
        omega

theorem drawGroupAux_short (ax : Nat) (xs : List XYData)
    (cs ms lss lbs : List (Option String)) :
    ∀ (k idx : Nat), idx + k ≤ xs.length → idx + k ≤ ms.length →
      idx + k ≤ lss.length → idx + k ≤ lbs.length →
      idx ≤ cs.length → cs.length < idx + k →
      (drawGroupAux ax false xs cs ms lss lbs idx k).2 = some .indexError ∧
      (drawGroupAux ax false xs cs ms lss lbs idx k).1.length =
        cs.length - idx := by
  intro k
  induction k with
  | zero =>
    intro idx h1 h3 h4 h5 h6 h7
    omega
  | succ k ih =>
    intro idx h1 h3 h4 h5 h6 h7
    have hx : xs[idx]? = some (xs.get ⟨idx, by omega⟩) :=
      List.getElem?_eq_getElem (show idx < xs.length by omega)
    have hm : ms[idx]? = some (ms.get ⟨idx, by omega⟩) :=
      List.getElem?_eq_getElem (show idx < ms.length by omega)
    have hls : lss[idx]? = some (lss.get ⟨idx, by omega⟩) :=
      List.getElem?_eq_getElem (show idx < lss.length by omega)
    have hlb : lbs[idx]? = some (lbs.get ⟨idx, by omega⟩) :=
      List.getElem?_eq_getElem (show idx < lbs.length by omega)
    rcases Nat.eq_or_lt_of_le h6 with heq | hlt
    · have hc : cs[idx]? = none := List.getElem?_eq_none (by omega)
      simp only [drawGroupAux, hx, hm, hls, hlb, hc, Bool.false_eq_true,
        if_false]
      constructor
      · trivial
      · simp only [List.length_nil]
        omega
    · have hc : cs[idx]? = some (cs.get ⟨idx, hlt⟩) :=
        List.getElem?_eq_getElem hlt
      obtain ⟨ihErr, ihLen⟩ := ih (idx + 1) (by omega) (by omega) (by omega)
        (by omega) (by omega) (by omega)
      simp only [drawGroupAux, hx, hc, hm, hls, hlb, Bool.false_eq_true,
        if_false]
      refine ⟨ihErr, ?_⟩
      simp [ihLen]
      omega

theorem sortQ_replicate (k : Nat) (c : Rat) :
    sortQ (List.replicate k c) = List.replicate k c :=
  List.Sorted.insertionSort_eq (List.pairwise_replicate.mpr (Or.inr le_rfl))

theorem histLogEdges_linspace (a b : Rat) (n : Nat) (hn : n ≠ 0) :
    histLogEdges (linspace a b (n + 1)) =
      (linspace (Real.logb 10 ((a : Rat) : Real))
        (Real.logb 10 ((b : Rat) : Real)) (n + 1)).map
        (fun t => (10 : Real) ^ t) := by
  have h1 : (linspace a b (n + 1)).headD 0 = a := by
    rw [List.headD_eq_head?, List.head?_eq_getElem?, linspace_first a b hn]
    rfl
  have h2 : (linspace a b (n + 1)).getLastD 0 = b := by
    rw [List.getLastD_eq_getLast?, List.getLast?_eq_getElem?,
      linspace_length, Nat.add_sub_cancel,
      linspace_last a b hn (Nat.cast_ne_zero.mpr hn)]
    rfl
  have h3 : (linspace a b (n + 1)).length = n + 1 := linspace_length a b (n + 1)
  unfold histLogEdges
  rw [h1, h2, h3]

theorem logMap_first (A B : Real) {n : Nat} (hn : n ≠ 0) :
    ((linspace A B (n + 1)).map (fun t => (10 : Real) ^ t))[0]? =
      some ((10 : Real) ^ A) := by
  rw [List.getElem?_map, linspace_first A B hn]
  rfl

theorem logMap_last (A B : Real) {n : Nat} (hn : n ≠ 0) :
    ((linspace A B (n + 1)).map (fun t => (10 : Real) ^ t))[n]? =
      some ((10 : Real) ^ B) := by
  rw [List.getElem?_map, linspace_last A B hn (Nat.cast_ne_zero.mpr hn)]
  rfl

theorem logMap_step (A B : Real) {n i : Nat} (hn : n ≠ 0) (hi : i < n) :
    ∃ u v : Real,
      ((linspace A B (n + 1)).map (fun t => (10 : Real) ^ t))[i]? = some u ∧
      ((linspace A B (n + 1)).map (fun t => (10 : Real) ^ t))[i + 1]? = some v ∧
      v = u * (10 : Real) ^ ((B - A) / (n : Real)) := by
  refine ⟨(10 : Real) ^ (A + ((B - A) * ((i : Nat) : Real)) / ((n : Nat) : Real)),
    (10 : Real) ^ (A + ((B - A) * (((i + 1 : Nat)) : Real)) / ((n : Nat) : Real)),
    ?_, ?_, ?_⟩
  · rw [List.getElem?_map, linspace_getElem A B hn (by omega)]
    rfl
  · rw [List.getElem?_map, linspace_getElem A B hn (by omega)]
    rfl
  · rw [← Real.rpow_add (by norm_num : (0 : Real) < 10)]
    congr 1
    have hK : ((n : Nat) : Real) ≠ 0 := Nat.cast_ne_zero.mpr hn
    push_cast
    field_simp
    ring

/-- C1 counterexample: in a dual-axis call with L = 1 left series and
R = 1 right series, a flat `colors` list of length L + R = 2 does not
route its second entry to the right series. The resolved right-group
table is empty, the single left series is drawn with the first entry,
and the call dies with an `IndexError` when the right series is drawn,
so no draw call on axis 2 is ever issued. -/
theorem flat_style_dual_axis_counterexample :
    resolveStyle 1 1 (.flat ["red", "blue"]) =
      .ok ([some "red", some "blue"], []) ∧
    singlePlotDrawPhase (pairColorsParams [xyA] [xyB] ["red", "blue"]) =
      ([⟨1, 0, [0], [1], .missing, .missing, false, some "red", none, none,
          none⟩], some .indexError) := by
  constructor
  · rfl
  · decide

/-- C1 (amended): in a dual-axis call (R > 0), a flat style list is
assigned to the left group only: the left-group table is the whole list
(series i of the left group receives entry i) and the right-group table
is empty, so after the L left series are drawn the call fails with an
`IndexError` at the first right series; no entry of a flat list ever
reaches the right group. The final two conjuncts record the flat-list
normalization itself for the style options and for `legend_labels`. -/
theorem flat_style_list_left_group_only (ld : List XYData) (r : XYData)
    (rs : List XYData) (c : String) (cl : List String)
    (hlen : ld.length ≤ (c :: cl).length) :
    (singlePlotDrawPhase (pairColorsParams ld (r :: rs) (c :: cl))).2 =
      some .indexError ∧
    (singlePlotDrawPhase (pairColorsParams ld (r :: rs) (c :: cl))).1.length =
      ld.length ∧
    (∀ j, j < ld.length →
      ∃ call,
        (singlePlotDrawPhase (pairColorsParams ld (r :: rs) (c :: cl))).1[j]? =
          some call ∧
        call.axisIdx = 1 ∧ call.dataIdx = j ∧ call.color = (c :: cl)[j]?) ∧
    resolveStyle ld.length (r :: rs).length (.flat (c :: cl)) =
      .ok ((c :: cl).map some, []) ∧
    resolveLegendLabels ld.length (r :: rs).length (.flat (c :: cl)) =
      .ok (false, (c :: cl).map some, []) := by
  obtain ⟨hl2, hl1, hlg⟩ := drawGroupAux_ok 1 ld ((c :: cl).map some)
    (List.replicate ld.length none) (List.replicate ld.length none)
    (List.replicate ld.length none) ld.length 0 (by omega)
    (by simp only [List.length_map, Nat.zero_add]; exact hlen)
    (by simp) (by simp) (by simp)
  obtain ⟨hr2, hr1⟩ := drawGroupAux_short 2 (r :: rs)
    ([] : List (Option String)) (List.replicate (r :: rs).length none)
    (List.replicate (r :: rs).length none)
    (List.replicate (r :: rs).length none) (r :: rs).length 0
    (by omega) (by simp) (by simp) (by simp) (by simp) (by simp)
  have hrnil : (drawGroupAux 2 false (r :: rs) []
      (List.replicate (r :: rs).length none)
      (List.replicate (r :: rs).length none)
      (List.replicate (r :: rs).length none) 0 (r :: rs).length).1 = [] := by
    rw [← List.length_eq_zero, hr1]
    simp
  simp only [pairColorsParams, singlePlotDrawPhase, partitionXYDataSets,
    resolveLegendLabels, resolveStyle, resolveBoolOpt, drawGroup, hl2]
  refine ⟨?_, ?_, ?_, trivial, trivial⟩
  · exact hr2
  · simp only [hrnil, List.append_nil, hl1]
  · intro j hj
    obtain ⟨call, hc1, hax, hidx, hcol⟩ := hlg j hj
    refine ⟨call, ?_, hax, by simpa using hidx, ?_⟩
    · simp only [hrnil, List.append_nil]
      exact hc1
    · have hj2 : j < (c :: cl).length := lt_of_lt_of_le hj hlen
      simp only [Nat.zero_add, List.getElem?_map] at hcol
      rw [List.getElem?_eq_getElem hj2] at hcol
      simp only [Option.map_some'] at hcol
      rw [List.getElem?_eq_getElem hj2]
      exact Option.some.inj hcol

/-- C1 witness: concrete instance of the amended claim with two left
series, one right series and a flat list of three colors. -/
theorem flat_style_list_left_group_only_witness :
    ([xyA, xyB] : List XYData).length ≤
      (["red", "green", "blue"] : List String).length ∧
    (singlePlotDrawPhase
      (pairColorsParams [xyA, xyB] [xyC] ["red", "green", "blue"])).2 =
      some .indexError :=
  ⟨by decide,
    (flat_style_list_left_group_only [xyA, xyB] xyC [] "red"
      ["green", "blue"] (by decide)).1⟩

/-- C2 counterexample: `single_plot` performs no length validation. With
two left-group series and a flat `colors` list of length 3 (≠ 2) the
call draws both series and signals no error at all; with a flat list of
length 1 (≠ 2) the first series is drawn before the call fails, so the
failure is neither immediate nor prior to every draw call. -/
theorem style_length_mismatch_counterexample :
    singlePlotDrawPhase (flatColorsParams [xyA, xyB] ["red", "green", "blue"]) =
      ([⟨1, 0, [0], [1], .missing, .missing, false, some "red", none, none,
          none⟩,
        ⟨1, 1, [0], [2], .missing, .missing, false, some "green", none, none,
          none⟩], none) ∧
    singlePlotDrawPhase (flatColorsParams [xyA, xyB] ["red"]) =
      ([⟨1, 0, [0], [1], .missing, .missing, false, some "red", none, none,
          none⟩], some .indexError) := by
  constructor
  · decide
  · decide

/-- C2 (amended): no length check is made before drawing. In a
single-group call with N series and a flat style list: a list of length
at least N draws all N series and signals no error (extra entries are
ignored); a list of length below N raises an `IndexError` at the first
series without an entry, after the draw calls for the first `len(list)`
series have been issued. -/
theorem style_length_mismatch_behavior (d : XYData) (ds : List XYData)
    (c : String) (cl : List String) :
    ((d :: ds).length ≤ (c :: cl).length →
      (singlePlotDrawPhase (flatColorsParams (d :: ds) (c :: cl))).2 = none ∧
      (singlePlotDrawPhase (flatColorsParams (d :: ds) (c :: cl))).1.length =
        (d :: ds).length) ∧
    ((c :: cl).length < (d :: ds).length →
      (singlePlotDrawPhase (flatColorsParams (d :: ds) (c :: cl))).2 =
        some .indexError ∧
      (singlePlotDrawPhase (flatColorsParams (d :: ds) (c :: cl))).1.length =
        (c :: cl).length) := by
  constructor
  · intro hN
    obtain ⟨hl2, hl1, _⟩ := drawGroupAux_ok 1 (d :: ds) ((c :: cl).map some)
      (List.replicate (d :: ds).length none)
      (List.replicate (d :: ds).length none)
      (List.replicate (d :: ds).length none) (d :: ds).length 0 (by omega)
      (by simp only [List.length_map, Nat.zero_add]; exact hN)
      (by simp) (by simp) (by simp)
    have hre : drawGroupAux 2 false ([] : List XYData)
        ([] : List (Option String))
        (List.replicate ([] : List XYData).length (none : Option String))
        (List.replicate ([] : List XYData).length (none : Option String))
        (List.replicate ([] : List XYData).length (none : Option String)) 0
        ([] : List XYData).length = ([], none) := rfl
    simp only [flatColorsParams, singlePlotDrawPhase, partitionXYDataSets,
      resolveLegendLabels, resolveStyle, resolveBoolOpt, drawGroup, hl2, hre,
      List.append_nil]
    exact ⟨trivial, by simpa using hl1⟩
  · intro hN
    obtain ⟨hl2, hl1⟩ := drawGroupAux_short 1 (d :: ds) ((c :: cl).map some)
      (List.replicate (d :: ds).length none)
      (List.replicate (d :: ds).length none)
      (List.replicate (d :: ds).length none) (d :: ds).length 0 (by omega)
      (by simp) (by simp) (by simp)
      (by simp only [List.length_map]; omega)
      (by simp only [List.length_map, Nat.zero_add]; exact hN)
    simp only [flatColorsParams, singlePlotDrawPhase, partitionXYDataSets,
      resolveLegendLabels, resolveStyle, resolveBoolOpt, drawGroup, hl2]
    refine ⟨trivial, ?_⟩
    rw [hl1]
    simp

/-- C2 witness: concrete instances of both branches of the amended
claim, with two series and lists of lengths 3 and 1. -/
theorem style_length_mismatch_behavior_witness :
    (([xyA, xyB] : List XYData).length ≤
        (["red", "green", "blue"] : List String).length ∧
      (singlePlotDrawPhase
        (flatColorsParams [xyA, xyB] ["red", "green", "blue"])).2 = none) ∧
    ((["red"] : List String).length < ([xyA, xyB] : List XYData).length ∧
      (singlePlotDrawPhase (flatColorsParams [xyA, xyB] ["red"])).2 =
        some .indexError) :=
  ⟨⟨by decide,
      ((style_length_mismatch_behavior xyA [xyB] "red" ["green", "blue"]).1
        (by decide)).1⟩,
    ⟨by decide,
      ((style_length_mismatch_behavior xyA [xyB] "red" []).2 (by decide)).1⟩⟩

/-- C3: a single scalar style value is broadcast identically to every
series. In `single_plot`, a scalar string for `colors` / `markers` /
`linestyles` resolves every one of the L left and R right series to
that string; in `single_hist`, a scalar `colors` or `alphas` value
resolves identically for all N data sets. -/
theorem scalar_style_broadcast (L R N : Nat) (s : String) (a : Rat) :
    resolveStyle L R (.str s) =
      .ok (List.replicate L (some s), List.replicate R (some s)) ∧
    resolveHistColors N (some (.scalar s)) = List.replicate N (some s) ∧
    resolveHistAlphas N (.scalar a) = List.replicate N a := by
  refine ⟨rfl, ?_, ?_⟩
  · simp [resolveHistColors, toNpArray, npResize, Nat.mod_one,
      List.getD_cons_zero, List.map_const', List.length_range,
      List.map_replicate]
  · simp [resolveHistAlphas, toNpArray, npResize, Nat.mod_one,
      List.getD_cons_zero, List.map_const', List.length_range]

/-- C4 counterexample: an empty flat series collection is not
partitioned into an empty left group; `xy_data_sets[0]` raises an
uncaught `IndexError` (the `except` clause catches only `TypeError`)
and the call fails before anything is drawn. -/
theorem empty_flat_collection_counterexample :
    partitionXYDataSets (.flat []) = .error .indexError ∧
    singlePlotDrawPhase { xy_data_sets := .flat [] } =
      ([], some .indexError) := by
  exact ⟨rfl, by decide⟩

/-- C4 (amended): the partition of `xy_data_sets` is purely structural
provided a flat collection is nonempty: a nonempty flat sequence of
series puts every series in the left group with an empty right group,
and a two-element sequence of sequences makes the first inner sequence
the left group and the second the right group. (An empty flat
collection instead raises an uncaught `IndexError`.) -/
theorem xy_data_sets_structural_partition (d : XYData) (ds : List XYData)
    (ga gb : List XYData) :
    partitionXYDataSets (.flat (d :: ds)) = .ok (d :: ds, []) ∧
    partitionXYDataSets (.pair ga gb) = .ok (ga, gb) :=
  ⟨rfl, rfl⟩

/-- C5 counterexample: `single_plot` mutates the caller's params
object. With default `vline_kwargs_set = None` and one vline, a
completed call overwrites `vline_kwargs_set` with `[{}]`, so the field
does not hold the same value after the call. -/
theorem params_mutation_counterexample :
    ({ xy_data_sets := .flat [xyA], vlines := [1] } :
      SinglePlotParams).vline_kwargs_set = none ∧
    (singlePlotModel { xy_data_sets := .flat [xyA], vlines := [1] }).2.2 =
      none ∧
    (singlePlotModel
      { xy_data_sets := .flat [xyA], vlines := [1] }).1.vline_kwargs_set =
      some [[]] := by
  refine ⟨rfl, by decide, by decide⟩

/-- C5 (amended): the only fields of the caller's params object that
`single_plot` can change are `vline_kwargs_set` and `hline_kwargs_set`:
each is overwritten with a list of empty kwargs dictionaries (one per
vline resp. hline) when previously `None` and kept otherwise, every
other field is unchanged, and a call that fails during the draw phase
leaves the params object untouched. -/
theorem params_mutation_scope (p : SinglePlotParams) :
    (p.vline_kwargs_set = none →
      (updateLineKwargs p).vline_kwargs_set =
        some (List.replicate p.vlines.length ([] : Kwargs))) ∧
    (∀ k, p.vline_kwargs_set = some k →
      (updateLineKwargs p).vline_kwargs_set = some k) ∧
    (p.hline_kwargs_set = none →
      (updateLineKwargs p).hline_kwargs_set =
        some (List.replicate p.hlines.length ([] : Kwargs))) ∧
    (∀ k, p.hline_kwargs_set = some k →
      (updateLineKwargs p).hline_kwargs_set = some k) ∧
    ((singlePlotModel p).2.2 ≠ none → (singlePlotModel p).1 = p) ∧
    (updateLineKwargs p).xy_data_sets = p.xy_data_sets ∧
    (updateLineKwargs p).scatterplot = p.scatterplot ∧
    (updateLineKwargs p).colors = p.colors ∧
    (updateLineKwargs p).markers = p.markers ∧
    (updateLineKwargs p).markersize = p.markersize ∧
    (updateLineKwargs p).vlines = p.vlines ∧
    (updateLineKwargs p).hlines = p.hlines ∧
    (updateLineKwargs p).linestyles = p.linestyles ∧
    (updateLineKwargs p).linewidth = p.linewidth ∧
    (updateLineKwargs p).grid_linewidth = p.grid_linewidth ∧
    (updateLineKwargs p).x_lims = p.x_lims ∧
    (updateLineKwargs p).y_lims = p.y_lims ∧
    (updateLineKwargs p).x_log_scale = p.x_log_scale ∧
    (updateLineKwargs p).y_log_scale = p.y_log_scale ∧
    (updateLineKwargs p).x_label = p.x_label ∧
    (updateLineKwargs p).y_label = p.y_label ∧
    (updateLineKwargs p).xy_label_ft_size = p.xy_label_ft_size ∧
    (updateLineKwargs p).legend_labels = p.legend_labels ∧
    (updateLineKwargs p).legend_loc = p.legend_loc ∧
    (updateLineKwargs p).legend_ft_size = p.legend_ft_size ∧
    (updateLineKwargs p).major_xtick_len = p.major_xtick_len ∧
    (updateLineKwargs p).minor_xtick_len = p.minor_xtick_len ∧
    (updateLineKwargs p).major_ytick_len = p.major_ytick_len ∧
    (updateLineKwargs p).minor_ytick_len = p.minor_ytick_len ∧
    (updateLineKwargs p).major_xtick_spacing = p.major_xtick_spacing ∧
    (updateLineKwargs p).minor_xtick_spacing = p.minor_xtick_spacing ∧
    (updateLineKwargs p).major_ytick_spacing = p.major_ytick_spacing ∧
    (updateLineKwargs p).minor_ytick_spacing = p.minor_ytick_spacing ∧
    (updateLineKwargs p).tick_label_ft_size = p.tick_label_ft_size ∧
    (updateLineKwargs p).title = p.title ∧
    (updateLineKwargs p).title_ft_size = p.title_ft_size ∧
    (updateLineKwargs p).fig_label = p.fig_label ∧
    (updateLineKwargs p).fig_label_coords = p.fig_label_coords ∧
    (updateLineKwargs p).fig_label_ft_size = p.fig_label_ft_size ∧
    (updateLineKwargs p).aspect = p.aspect ∧
    (updateLineKwargs p).scale = p.scale ∧
    (updateLineKwargs p).filename = p.filename ∧
    (updateLineKwargs p).img_fmt = p.img_fmt ∧
    (updateLineKwargs p).show_ = p.show_ := by
  rcases hv : p.vline_kwargs_set with _ | kv <;>
    rcases hh : p.hline_kwargs_set with _ | kh <;>
      rcases hd : (singlePlotDrawPhase p).2 with _ | e <;>
        simp [updateLineKwargs, singlePlotModel, hv, hh, hd]

/-- C5 witness: concrete instance of the amended claim, hitting the
`None`-overwrite branch for `vline_kwargs_set` and checking another
field is preserved. -/
theorem params_mutation_scope_witness :
    (updateLineKwargs
      { xy_data_sets := .flat [xyA], vlines := [1] }).vline_kwargs_set =
      some [[]] ∧
    (updateLineKwargs
      { xy_data_sets := .flat [xyA], vlines := [1] }).xy_data_sets =
      XYDataSets.flat [xyA] := by
  obtain ⟨hv1, _, _, _, _, hxy, _⟩ :=
    params_mutation_scope { xy_data_sets := .flat [xyA], vlines := [1] }
  exact ⟨hv1 rfl, hxy⟩

/-- C8: style normalization is the identity on already-resolved input.
For a single-group call (R = 0) with N series, a flat list of N scalars
resolves to exactly that list as the left-group table, and normalizing
the per-series list obtained by broadcasting a single scalar yields the
same table as broadcasting the scalar itself. -/
theorem style_normalization_idempotent (s0 : String) (t : List String)
    (sc : String) :
    resolveStyle (s0 :: t).length 0 (.flat (s0 :: t)) =
      .ok ((s0 :: t).map some, []) ∧
    resolveStyle (t.length + 1) 0
        (.flat (List.replicate (t.length + 1) sc)) =
      resolveStyle (t.length + 1) 0 (.str sc) := by
  refine ⟨rfl, ?_⟩
  rw [List.replicate_succ]
  simp [resolveStyle, List.map_replicate, List.replicate_succ]

/-- C9 counterexample: a zero-range data set with an integer bin count
does not signal a data error. With `x = [5, 5]` and `bins = 2` the
computed edges are the degenerate `[5, 5, 5]`, both hist draws are
issued and the call completes without error. -/
theorem zero_range_hist_counterexample :
    histBinsFill (.int 2) [5, 5] = .ok [5, 5, 5] ∧
    (singleHistModel { x_data_sets := [⟨[5, 5]⟩], bins := .int 2 }).2 =
      none ∧
    (singleHistModel { x_data_sets := [⟨[5, 5]⟩], bins := .int 2 }).1.length =
      2 := by
  refine ⟨?_, ?_, ?_⟩ <;>
    norm_num [singleHistModel, histFillAux, histOutlineAux, histBinsFill,
      histBinsOutline, cumulativeEqFalse, resolveHistColors,
      resolveHistAlphas, toNpArray, npResize, aminQ, amaxQ, sortQ, linspace,
      mkEdges, List.range_succ, List.insertionSort, List.orderedInsert]

/-- C9 (amended): for a data set whose values all coincide,
`single_hist` signals no error at all: `np.amin` and `np.amax` both
return the common value and the bin computation succeeds, producing
n + 1 identical edges (a degenerate zero-width histogram is handed to
the renderer). -/
theorem zero_range_hist_no_error (c : Rat) (m n : Nat) :
    aminQ (List.replicate (m + 1) c) = some c ∧
    amaxQ (List.replicate (m + 1) c) = some c ∧
    histBinsFill (.int (n + 1)) (List.replicate (m + 1) c) =
      .ok (List.replicate (n + 2) c) := by
  refine ⟨aminQ_replicate m c, amaxQ_replicate m c, ?_⟩
  simp only [histBinsFill, aminQ_replicate, amaxQ_replicate]
  rw [linspace_const, sortQ_replicate]

/-- C7: evaluation at a failing input for the claim that the outline
draw uses the same bin edges as the fill draw. With explicit unsorted
bins `[3, 1, 2]` and `cumulative=False`, the single data set gets
exactly two hist draws, the filled one with the sorted edges
`[1, 2, 3]` but the outline one with the unsorted `[3, 1, 2]` (the
second loop's `np.sort` sits inside the integer-bins branch), so the
two draws do not use the same edges. -/
theorem hist_outline_unsorted_bins_bug :
    singleHistModel { x_data_sets := [⟨[1, 2]⟩], bins := .arr [3, 1, 2] } =
      ([⟨0, [1, 2], .lin [1, 2, 3], "bar", false, none, none, none,
          some (8/10), none, some (.bool false), false⟩,
        ⟨0, [1, 2], .lin [3, 1, 2], "bar", true, some "None", some "black",
          some 2, none, none, none, false⟩], none) ∧
    EdgeSpec.lin [1, 2, 3] ≠ EdgeSpec.lin [3, 1, 2] := by
  constructor
  · norm_num [singleHistModel, histFillAux, histOutlineAux, histBinsFill,
      histBinsOutline, cumulativeEqFalse, resolveHistColors,
      resolveHistAlphas, toNpArray, npResize, aminQ, amaxQ, sortQ, linspace,
      mkEdges, List.range_succ, List.insertionSort, List.orderedInsert]
  · decide

/-- C10: when the series collection is a single group (no right-group
series), `single_plot` mirrors the left axis onto the right twin axis:
the right axis's y-limits are set to the left axis's y-limits, its
minor y-ticks are copied from the left axis, and right-side tick labels
are disabled; with a nonempty right group, right-side tick labels are
enabled and nothing is mirrored. -/
theorem right_axis_mirror_when_single_group (R : Nat) (ax1 : LeftAxisView) :
    (R = 0 → rightAxisTickSetup R ax1 =
      { labelright := false, mirroredYLim := some ax1.ylim, mirroredMinorTicks := some ax1.minorYTicks }) ∧
    (R ≠ 0 → (rightAxisTickSetup R ax1).labelright = true ∧
      (rightAxisTickSetup R ax1).mirroredYLim = none ∧
      (rightAxisTickSetup R ax1).mirroredMinorTicks = none) := by
  constructor
  · intro h
    simp [rightAxisTickSetup, h]
  · intro h
    simp [rightAxisTickSetup, h]

/-- C10 witness: concrete instances of both branches, with R = 0 and
R = 1. -/
theorem right_axis_mirror_when_single_group_witness :
    rightAxisTickSetup 0 ⟨(0, 1), [2]⟩ =
      { labelright := false, mirroredYLim := some (0, 1), mirroredMinorTicks := some [2] } ∧
    (rightAxisTickSetup 1 ⟨(0, 1), [2]⟩).labelright = true :=
  ⟨(right_axis_mirror_when_single_group 0 ⟨(0, 1), [2]⟩).1 rfl,
    ((right_axis_mirror_when_single_group 1 ⟨(0, 1), [2]⟩).2 (by decide)).1⟩

/-- C6: for an integer bin count n and a nonempty data set, the fill
edges of `single_hist` are exactly `linspace(min x, max x, n + 1)`: n+1
values of equal spacing `(max - min) / n`, beginning at `min x` and
ending at `max x`. When `x_log_scale` is true the edges handed to
`ax.hist` are the `n + 1` logspace values over the same range: they
begin at `min x`, end at `max x`, and successive edges differ by the
constant factor `10 ^ ((log10 max - log10 min) / n)` (for positive
data, as base-10 logarithms require). -/
theorem integer_bins_edge_spacing (x0 : Rat) (xs : List Rat) (n : Nat)
    (hn : 0 < n) :
    ∃ a b : Rat,
      aminQ (x0 :: xs) = some a ∧ amaxQ (x0 :: xs) = some b ∧ a ≤ b ∧
      histBinsFill (.int n) (x0 :: xs) = .ok (linspace a b (n + 1)) ∧
      (linspace a b (n + 1)).length = n + 1 ∧
      (linspace a b (n + 1))[0]? = some a ∧
      (linspace a b (n + 1))[n]? = some b ∧
      (∀ i, i < n → ∃ u v : Rat, (linspace a b (n + 1))[i]? = some u ∧
        (linspace a b (n + 1))[i + 1]? = some v ∧
        v - u = (b - a) / (n : Rat)) ∧
      (0 < a →
        edgeSpecValues (mkEdges true (linspace a b (n + 1))) =
          (linspace (Real.logb 10 ((a : Rat) : Real))
            (Real.logb 10 ((b : Rat) : Real)) (n + 1)).map
            (fun t => (10 : Real) ^ t) ∧
        (edgeSpecValues (mkEdges true (linspace a b (n + 1)))).length =
          n + 1 ∧
        (edgeSpecValues (mkEdges true (linspace a b (n + 1))))[0]? =
          some ((a : Rat) : Real) ∧
        (edgeSpecValues (mkEdges true (linspace a b (n + 1))))[n]? =
          some ((b : Rat) : Real) ∧
        (∀ i, i < n → ∃ u v : Real,
          (edgeSpecValues (mkEdges true (linspace a b (n + 1))))[i]? =
            some u ∧
          (edgeSpecValues (mkEdges true (linspace a b (n + 1))))[i + 1]? =
            some v ∧
          v = u * (10 : Real) ^ ((Real.logb 10 ((b : Rat) : Real) -
            Real.logb 10 ((a : Rat) : Real)) / (n : Real)))) := by
  have hn0 : n ≠ 0 := Nat.pos_iff_ne_zero.mp hn
  have hab : xs.foldl min x0 ≤ xs.foldl max x0 := aminQ_le_amaxQ x0 xs
  refine ⟨xs.foldl min x0, xs.foldl max x0, rfl, rfl, hab, ?_, ?_, ?_, ?_,
    ?_, ?_⟩
  · simp only [histBinsFill, aminQ, amaxQ]
    rw [sortQ_linspace _ _ _ hab]
  · exact linspace_length _ _ _
  · exact linspace_first _ _ hn0
  · exact linspace_last _ _ hn0 (Nat.cast_ne_zero.mpr hn0)
  · intro i hi
    exact linspace_step _ _ hn0 (Nat.cast_ne_zero.mpr hn0) hi
  · intro ha
    have hb : (0 : Rat) < xs.foldl max x0 := lt_of_lt_of_le ha hab
    have haR : (0 : Real) < ((xs.foldl min x0 : Rat) : Real) :=
      Rat.cast_pos.mpr ha
    have hbR : (0 : Real) < ((xs.foldl max x0 : Rat) : Real) :=
      Rat.cast_pos.mpr hb
    have hE : edgeSpecValues
        (mkEdges true (linspace (xs.foldl min x0) (xs.foldl max x0)
          (n + 1))) =
        (linspace (Real.logb 10 ((xs.foldl min x0 : Rat) : Real))
          (Real.logb 10 ((xs.foldl max x0 : Rat) : Real)) (n + 1)).map
          (fun t => (10 : Real) ^ t) := by
      rw [show edgeSpecValues (mkEdges true
          (linspace (xs.foldl min x0) (xs.foldl max x0) (n + 1))) =
          histLogEdges (linspace (xs.foldl min x0) (xs.foldl max x0)
            (n + 1)) from rfl,
        histLogEdges_linspace _ _ n hn0]
    refine ⟨hE, ?_, ?_, ?_, ?_⟩
    · rw [hE]
      simp [linspace_length]
    · rw [hE, logMap_first _ _ hn0]
      rw [Real.rpow_logb (by norm_num) (by norm_num) haR]
    · rw [hE, logMap_last _ _ hn0]
      rw [Real.rpow_logb (by norm_num) (by norm_num) hbR]
    · intro i hi
      rw [hE]
      exact logMap_step _ _ hn0 hi

/-- C6 witness: concrete instance with data set `[1, 3]` and `bins = 2`
(the linear conjuncts of the claim, extracted from the theorem applied
at that input). -/
theorem integer_bins_edge_spacing_witness :
    ∃ a b : Rat,
      aminQ (1 :: [3]) = some a ∧ amaxQ (1 :: [3]) = some b ∧ a ≤ b ∧
      histBinsFill (.int 2) (1 :: [3]) = .ok (linspace a b (2 + 1)) := by
  obtain ⟨a, b, h1, h2, h3, h4, _⟩ :=
    integer_bins_edge_spacing 1 [3] 2 (by norm_num)
  exact ⟨a, b, h1, h2, h3, h4⟩
